import Mathlib

/-!
# Verification of the dekodek decompression planner

Shallow embedding of `src/src/app/deco-planner.service.ts` (class `DecoPlanner`,
ZH-L16C tissue model with gradient factors) and of the MOD computation in
`src/src/app/app.component.ts`, over exact rationals.

The only transcendental ingredients of the source are the sixteen per-compartment
decay factors `Math.exp(-(Math.log 2 / hl i) * dt)`.  Since `dt` is a fixed
constant of the class (0.1 min, never reassigned), these sixteen factors are fixed
constants of a run; the embedding abstracts them as a parameter `r : List ℚ`
(one factor per compartment).  Every theorem that depends on their values carries
the hypotheses actually used (each factor lies in `[0, 1]`; for the
non-termination result, that the fastest compartment's factor is at most
`999/1000` — the true value is `2 ^ (-1/40) ≈ 0.9828`).  Everything else in the
source is exact rational arithmetic and is embedded verbatim.
-/

namespace Dekodek

/-- The fixed timestep of the planner: `private dt: number = 0.1` (minutes). -/
def dt : ℚ := 1 / 10

/-- ZH-L16C half-lives (minutes), field `hl` of `DecoPlanner`. -/
def hl : List ℚ :=
  [4, 5, 8, 125/10, 185/10, 27, 383/10, 543/10, 77, 109, 146, 187, 239, 305, 390, 498]

/-- ZH-L16C coefficients `a`, field `a` of `DecoPlanner`. -/
def aC : List ℚ :=
  [12599/10000, 10000/10000, 8618/10000, 7562/10000, 6667/10000, 5600/10000,
   4947/10000, 4500/10000, 4187/10000, 3798/10000, 3497/10000, 3223/10000,
   2850/10000, 2737/10000, 2523/10000, 2327/10000]

/-- ZH-L16C coefficients `b`, field `b` of `DecoPlanner`. -/
def bC : List ℚ :=
  [5050/10000, 6314/10000, 7222/10000, 7825/10000, 8126/10000, 8434/10000,
   8693/10000, 8910/10000, 9092/10000, 9222/10000, 9319/10000, 9403/10000,
   9477/10000, 9544/10000, 9602/10000, 9653/10000]

/-- The configuration fields of `DecoPlanner` after the constructor ran
(gradient factors and gas fractions already divided by 100). -/
structure Planner where
  depth : ℚ
  bottomTime : ℚ
  vUp : ℚ
  sac : ℚ
  tankV : ℚ
  pDep : ℚ
  gfLow : ℚ
  gfHigh : ℚ
  fO2Bottom : ℚ
  fN2Bottom : ℚ
  fO2Deco : ℚ
  fN2Deco : ℚ
deriving Repr, DecidableEq

/-- The `DecoPlanner` constructor.  Arguments are in the caller's units
(gradient factors and oxygen fractions as percentages, `fO2Deco` optional).
`fO2Deco ? fO2Deco / 100 : this.fO2Bottom` uses JS truthiness: an absent
deco fraction — and also the (falsy) value `0` — defaults to the bottom
fraction. -/
def mkPlanner (depth bottomTime vUp sac tankV pDep gfLow gfHigh fO2Bottom : ℚ)
    (fO2Deco : Option ℚ) : Planner :=
  let fb := fO2Bottom / 100
  let fd := match fO2Deco with
    | none => fb
    | some x => if x = 0 then fb else x / 100
  { depth := depth
    bottomTime := bottomTime
    vUp := vUp
    sac := sac
    tankV := tankV
    pDep := pDep
    gfLow := gfLow / 100
    gfHigh := gfHigh / 100
    fO2Bottom := fb
    fN2Bottom := 1 - fb
    fO2Deco := fd
    fN2Deco := 1 - fd }

/-- The mutable simulation state of a run: the 16 tissue pressures and the
`DiveLog` being accumulated (`time`, `depth`, `tissues` histories, total
consumption `cons`, and the `ppo2` series). -/
structure SimState where
  tissues : List ℚ
  logTime : List ℚ
  logDepth : List ℚ
  logTissues : List (List ℚ)
  cons : ℚ
  logPpo2 : List ℚ
deriving Repr, DecidableEq

/-- Initial state: all 16 tissues at 0.79 bar, empty log. -/
def initState : SimState :=
  { tissues := List.replicate 16 (79/100)
    logTime := []
    logDepth := []
    logTissues := List.replicate 16 []
    cons := 0
    logPpo2 := [] }

/-- `getSwitchDepth()`: `(1.6 / this.fO2Deco - 1.0) * 10.0`. -/
def getSwitchDepth (P : Planner) : ℚ :=
  (8/5 / P.fO2Deco - 1) * 10

/-- The inert-gas fraction selected inside `update`:
`(isDeco && d <= this.getSwitchDepth()) ? this.fN2Deco : this.fN2Bottom`. -/
def activeFN2 (P : Planner) (isDeco : Bool) (d : ℚ) : ℚ :=
  if isDeco = true ∧ d ≤ getSwitchDepth P then P.fN2Deco else P.fN2Bottom

/-- One call of `private update(d, t, isDeco)`: accumulate consumption, record
PPO2, advance every compartment toward the alveolar pressure, and append one
sample of every log series.  `r` lists the sixteen decay factors standing for
`exp(-(ln 2 / hl i) * dt)`. -/
def update (P : Planner) (r : List ℚ) (d t : ℚ) (isDeco : Bool) (s : SimState) :
    SimState :=
  let pAmb : ℚ := d / 10 + 1
  let fN2 := activeFN2 P isDeco d
  let fO2 := 1 - fN2
  let pAlv := (pAmb - 627/10000) * fN2
  let tissues' := List.zipWith (fun p ri => pAlv + (p - pAlv) * ri) s.tissues r
  { tissues := tissues'
    logTime := s.logTime ++ [t]
    logDepth := s.logDepth ++ [d]
    logTissues := List.zipWith (fun l v => l ++ [v]) s.logTissues tissues'
    cons := s.cons + P.sac * pAmb * dt
    logPpo2 := s.logPpo2 ++ [pAmb * fO2] }

/-- `Math.max(...ceilings)` over a non-empty list: the head seeds the fold. -/
def listMax : List ℚ → ℚ
  | [] => 0
  | x :: xs => xs.foldl max x

/-- `private getCeiling(currentDepth)`: gradient-factor interpolation, the
per-compartment GF-adjusted ceilings, their maximum converted to depth and
clamped at 0. -/
def getCeiling (P : Planner) (tissues : List ℚ) (currentDepth : ℚ) : ℚ :=
  let gfSlope := (P.gfHigh - P.gfLow) / (0 - P.depth)
  let currentGf := P.gfHigh + gfSlope * currentDepth
  let ceilings := List.zipWith
    (fun p ab => (p - ab.1 * currentGf) / (currentGf / ab.2 + 1 - currentGf))
    tissues (aC.zip bC)
  max 0 ((listMax ceilings - 1) * 10)

/-- `Math.ceil(ceiling / 3.0) * 3.0`: round a ceiling up to a 3 m stop. -/
def nextStop (c : ℚ) : ℚ :=
  (⌈c / 3⌉ : ℚ) * 3

/-- One iteration body of the ascent loop: compute ceiling and next stop, move
the depth (at most `vUp * dt` down, never past the stop; snap up to the stop
otherwise), then `update` with `isDeco = true`.  Returns the new depth and
state. -/
def ascentStep (P : Planner) (r : List ℚ) (currD t : ℚ) (s : SimState) :
    ℚ × SimState :=
  let ceiling := getCeiling P s.tissues currD
  let ns := nextStop ceiling
  let currD' :=
    if ns < currD then
      let c2 := currD - P.vUp * dt
      if c2 < ns then ns else c2
    else ns
  (currD', update P r currD' t true s)

/-- The ascent loop `while (currD > 0) { ... }` of `run()`, with explicit fuel:
`none` models the loop still running when the fuel is exhausted (the source
loop carries no bound of its own).  The `break` fires after the update when
the surface is reached and the re-evaluated ceiling is non-positive. -/
def ascentLoopF (P : Planner) (r : List ℚ) :
    ℕ → ℚ → ℚ → SimState → Option SimState
  | fuel, currD, t, s =>
    if 0 < currD then
      match fuel with
      | 0 => none
      | fuel' + 1 =>
        let step := ascentStep P r currD t s
        let currD' := step.1
        let s' := step.2
        if currD' = 0 ∧ getCeiling P s'.tissues 0 ≤ 0 then some s'
        else ascentLoopF P r fuel' currD' (t + dt) s'
    else some s

/-- The descent loop of `run()`: `while (currD < depth) { update; currD += 15*dt;
t += dt }`, fueled for uniformity (it always terminates in the source since the
step `15 * dt = 1.5` is a positive constant). -/
def descentLoopF (P : Planner) (r : List ℚ) :
    ℕ → ℚ → ℚ → SimState → Option (ℚ × SimState)
  | fuel, currD, t, s =>
    if currD < P.depth then
      match fuel with
      | 0 => none
      | fuel' + 1 =>
        descentLoopF P r fuel' (currD + 15 * dt) (t + dt) (update P r currD t false s)
    else some (t, s)

/-- The bottom loop of `run()`: `while (t < tEndBottom) { update(depth, t); t += dt }`,
fueled for uniformity. -/
def bottomLoopF (P : Planner) (r : List ℚ) (tEnd : ℚ) :
    ℕ → ℚ → SimState → Option (ℚ × SimState)
  | fuel, t, s =>
    if t < tEnd then
      match fuel with
      | 0 => none
      | fuel' + 1 =>
        bottomLoopF P r tEnd fuel' (t + dt) (update P r P.depth t false s)
    else some (t, s)

/-- `run()`: descent from the surface, bottom hold, then the ceiling-driven
ascent.  Returns the final state (the `DiveLog`) when every loop finished
within the given fuel. -/
def run (P : Planner) (r : List ℚ) (fuel : ℕ) : Option SimState := do
  let (t1, s1) ← descentLoopF P r fuel 0 0 initState
  let tEnd := t1 + P.bottomTime
  let (t2, s2) ← bottomLoopF P r tEnd fuel t1 s1
  ascentLoopF P r fuel P.depth t2 s2

/-- The bottom-gas MOD computed by `calculate()` in `app.component.ts`:
`(1.6 / (this.fO2Bottom / 100) - 1.0) * 10.0`, on a percentage. -/
def modOfPercent (fO2 : ℚ) : ℚ :=
  (8/5 / (fO2 / 100) - 1) * 10

/-- The interpolated gradient factor at a given depth, as computed inside
`getCeiling`: `currentGf = gfHigh + gfSlope * currentDepth` with
`gfSlope = (gfHigh - gfLow) / (0 - depth)`. -/
def gfAt (P : Planner) (currentDepth : ℚ) : ℚ :=
  P.gfHigh + (P.gfHigh - P.gfLow) / (0 - P.depth) * currentDepth

/-- The ceiling as the specification words it: the maximum over the 16
compartments `i` of `(tissue_i - a_i * GF) / (GF / b_i + 1 - GF)`, converted to
depth by `(value - 1) * 10` and clamped to a minimum of 0, with the gradient
factor interpolated by `gfAt`.  Stated from the spec's sentences, to be compared
with `getCeiling`, which is embedded from the source. -/
def specCeiling (P : Planner) (tissues : List ℚ) (currentDepth : ℚ) : ℚ :=
  let gf := gfAt P currentDepth
  let M := listMax ((List.range 16).map (fun i =>
    (tissues.getD i 0 - aC.getD i 0 * gf) / (gf / bC.getD i 0 + 1 - gf)))
  max 0 ((M - 1) * 10)

/-! ## Helper lemmas -/

theorem foldl_max_le_iff (xs : List ℚ) (a B : ℚ) :
    xs.foldl max a ≤ B ↔ a ≤ B ∧ ∀ x ∈ xs, x ≤ B := by
  induction xs generalizing a with
  | nil => simp
  | cons y ys ih =>
    simp only [List.foldl_cons, ih, max_le_iff, List.mem_cons]
    constructor
    · rintro ⟨⟨h1, h2⟩, h3⟩
      exact ⟨h1, fun x hx => hx.elim (fun h => h ▸ h2) (h3 x)⟩
    · rintro ⟨h1, h2⟩
      exact ⟨⟨h1, h2 y (Or.inl rfl)⟩, fun x hx => h2 x (Or.inr hx)⟩

theorem le_foldl_max (xs : List ℚ) (a : ℚ) : a ≤ xs.foldl max a := by
  by_contra h
  exact h ((foldl_max_le_iff xs a (xs.foldl max a)).mp le_rfl).1

theorem listMax_le_iff (xs : List ℚ) (B : ℚ) (hne : xs ≠ []) :
    listMax xs ≤ B ↔ ∀ x ∈ xs, x ≤ B := by
  cases xs with
  | nil => exact absurd rfl hne
  | cons y ys =>
    simp only [listMax, foldl_max_le_iff, List.mem_cons]
    constructor
    · rintro ⟨h1, h2⟩ x hx
      exact hx.elim (fun h => h ▸ h1) (h2 x)
    · intro h
      exact ⟨h y (Or.inl rfl), fun x hx => h x (Or.inr hx)⟩

theorem getD_zipWith (f : ℚ → ℚ → ℚ) (a b : List ℚ) (i : ℕ)
    (ha : i < a.length) (hb : i < b.length) :
    (List.zipWith f a b).getD i 0 = f (a.getD i 0) (b.getD i 0) := by
  have hz : i < (List.zipWith f a b).length := by
    simp [List.length_zipWith]; omega
  rw [List.getD_eq_getElem _ _ hz, List.getD_eq_getElem _ _ ha,
    List.getD_eq_getElem _ _ hb, List.getElem_zipWith]

theorem length_hl : hl.length = 16 := by simp [hl]

theorem length_aC : aC.length = 16 := by simp [aC]

theorem length_bC : bC.length = 16 := by simp [bC]

/-! ## Claim C4 — MOD values -/

/-- C4 counterexample: the claim states `MOD(32%) == 31.25 m`, but the function
`(1.6/f - 1) * 10` computed by `getSwitchDepth` and by the calling layer
returns `(1.6/0.32 - 1) * 10 = 40` at a 32% oxygen fraction, not `31.25`
(`31.25 = 125/4`). -/
theorem C4_mod_cex :
    modOfPercent 32 = 40 ∧ modOfPercent 32 ≠ 125/4 ∧
    getSwitchDepth (mkPlanner 40 20 10 19 15 200 30 70 21 (some 32)) = 40 := by
  refine ⟨by norm_num [modOfPercent], by norm_num [modOfPercent], ?_⟩
  norm_num [getSwitchDepth, mkPlanner]

/-- C4 amended: `MOD(f) = (1.6/f - 1) * 10` meters satisfies `MOD(32%) = 40 m`
(since `1.6/0.32 = 5`) and `MOD(21%) = 1390/21 ≈ 66.19 m`, both for
`getSwitchDepth` and for the bottom-gas MOD computation in the calling layer. -/
theorem C4_mod_amended :
    modOfPercent 32 = 40 ∧
    modOfPercent 21 = 1390/21 ∧
    |modOfPercent 21 - 6619/100| < 1/100 ∧
    getSwitchDepth (mkPlanner 40 20 10 19 15 200 30 70 21 (some 32)) = 40 ∧
    getSwitchDepth (mkPlanner 40 20 10 19 15 200 30 70 21 (some 21)) = 1390/21 := by
  refine ⟨by norm_num [modOfPercent], by norm_num [modOfPercent], ?_, ?_, ?_⟩
  · rw [abs_sub_lt_iff]; norm_num [modOfPercent]
  · norm_num [getSwitchDepth, mkPlanner]
  · norm_num [getSwitchDepth, mkPlanner]

/-! ## Claim C5 — the ceiling computation -/

/-- C5: for every tissue state (16 compartments) and current depth, `getCeiling`
returns `max 0 ((M - 1) * 10)` where `M` is the maximum over the 16 compartments
of `(tissue_i - a_i * GF) / (GF / b_i + 1 - GF)` with the linearly interpolated
gradient factor `gfAt`; the interpolation gives `gfLow` at the dive's maximum
depth and `gfHigh` at the surface, and the returned ceiling is never negative. -/
theorem C5_ceiling (P : Planner) (tissues : List ℚ) (d : ℚ)
    (hlen : tissues.length = 16) (hd : P.depth ≠ 0) :
    getCeiling P tissues d = specCeiling P tissues d ∧
    0 ≤ getCeiling P tissues d ∧
    gfAt P P.depth = P.gfLow ∧ gfAt P 0 = P.gfHigh := by
  refine ⟨?_, le_max_left _ _, ?_, ?_⟩
  · unfold getCeiling specCeiling gfAt
    dsimp only
    generalize P.gfHigh + (P.gfHigh - P.gfLow) / (0 - P.depth) * d = g
    congr 2
    rw [sub_left_inj]
    congr 1
    apply List.ext_getElem
    · simp [List.length_zipWith, hlen, length_aC, length_bC]
    · intro i h1 h2
      have hi : i < 16 := by
        simpa [List.length_zipWith, hlen, length_aC, length_bC] using h1
      have hit : i < tissues.length := by omega
      have hia : i < aC.length := by rw [length_aC]; omega
      have hib : i < bC.length := by rw [length_bC]; omega
      simp only [List.getElem_zipWith, List.getElem_map, List.getElem_range,
        List.getElem_zip]
      rw [List.getD_eq_getElem tissues 0 hit, List.getD_eq_getElem aC 0 hia,
        List.getD_eq_getElem bC 0 hib]
  · unfold gfAt
    have hd2 : (0 : ℚ) - P.depth ≠ 0 := by
      simpa using hd
    have hq : P.depth / (0 - P.depth) = -1 := by
      rw [div_eq_iff hd2]; ring
    calc P.gfHigh + (P.gfHigh - P.gfLow) / (0 - P.depth) * P.depth
        = P.gfHigh + (P.gfHigh - P.gfLow) * (P.depth / (0 - P.depth)) := by ring
      _ = P.gfLow := by rw [hq]; ring
  · unfold gfAt
    ring

/-- C5 witness: the theorem applied to a concrete planner and tissue state. -/
theorem C5_ceiling_witness :
    getCeiling (mkPlanner 40 20 10 19 15 200 30 70 21 none)
        (List.replicate 16 (79/100)) 40 =
      specCeiling (mkPlanner 40 20 10 19 15 200 30 70 21 none)
        (List.replicate 16 (79/100)) 40 ∧
    0 ≤ getCeiling (mkPlanner 40 20 10 19 15 200 30 70 21 none)
        (List.replicate 16 (79/100)) 40 ∧
    gfAt (mkPlanner 40 20 10 19 15 200 30 70 21 none)
        (mkPlanner 40 20 10 19 15 200 30 70 21 none).depth =
      (mkPlanner 40 20 10 19 15 200 30 70 21 none).gfLow ∧
    gfAt (mkPlanner 40 20 10 19 15 200 30 70 21 none) 0 =
      (mkPlanner 40 20 10 19 15 200 30 70 21 none).gfHigh :=
  C5_ceiling _ _ _ (by simp) (by norm_num [mkPlanner])

/-! ## Claim C6 — stop rounding and the per-step depth bound -/

/-- C6: the next stop is the ceiling rounded up to the nearest 3 m multiple:
any ceiling in `(3k, 3(k+1)]` yields a stop of exactly `3(k+1)` (so a ceiling
in `(0, 3]` yields 3 m, in `(3, 6]` yields 6 m, and so on); and within one
ascent timestep the new simulated depth never goes shallower than the next-stop
value computed from the ceiling at the old depth. -/
theorem C6_stop_rounding :
    (∀ (c : ℚ) (k : ℕ), 3 * (k : ℚ) < c → c ≤ 3 * ((k : ℚ) + 1) →
      nextStop c = 3 * ((k : ℚ) + 1)) ∧
    (∀ (P : Planner) (r : List ℚ) (currD t : ℚ) (s : SimState),
      nextStop (getCeiling P s.tissues currD) ≤ (ascentStep P r currD t s).1) := by
  constructor
  · intro c k h1 h2
    unfold nextStop
    have hceil : ⌈c / 3⌉ = (k : ℤ) + 1 := by
      rw [Int.ceil_eq_iff]
      constructor
      · push_cast
        linarith
      · push_cast
        linarith
    rw [hceil]
    push_cast
    ring
  · intro P r currD t s
    unfold ascentStep
    dsimp only
    split_ifs with h1 h2
    · exact le_rfl
    · linarith [not_lt.mp h2]
    · exact le_rfl

/-- C6 witness: a ceiling of 2 m rounds up to a 3 m stop, and a concrete ascent
step does not go shallower than the computed stop. -/
theorem C6_stop_rounding_witness :
    nextStop 2 = 3 ∧
    nextStop (getCeiling (mkPlanner 40 20 10 19 15 200 30 70 21 none)
        initState.tissues 40) ≤
      (ascentStep (mkPlanner 40 20 10 19 15 200 30 70 21 none)
        (List.replicate 16 1) 40 0 initState).1 := by
  constructor
  · have h := C6_stop_rounding.1 2 0 (by norm_num) (by norm_num)
    simpa using h
  · exact C6_stop_rounding.2 _ _ _ _ _

/-! ## Claim C7 — gas selection -/

/-- C7: with `isDeco = false` (descent and bottom phases) the active inert
fraction is always the bottom gas's, regardless of depth; with `isDeco = true`
(ascent phase) it is the deco gas's exactly when the depth is at most the
switch depth `(1.6 / fO2Deco - 1) * 10`, and the bottom gas's otherwise; for a
50% oxygen deco gas the switch depth is 22 m, and the deco fractions apply
exactly at depths `≤ 22` and never above. -/
theorem C7_gas_selection (P : Planner) (d : ℚ) :
    activeFN2 P false d = P.fN2Bottom ∧
    activeFN2 P true d =
      (if d ≤ getSwitchDepth P then P.fN2Deco else P.fN2Bottom) ∧
    getSwitchDepth P = (8/5 / P.fO2Deco - 1) * 10 ∧
    (∀ Q : Planner, Q.fO2Deco = 1/2 →
      getSwitchDepth Q = 22 ∧
      (∀ e : ℚ, (e ≤ 22 ∧ activeFN2 Q true e = Q.fN2Deco) ∨
        (22 < e ∧ activeFN2 Q true e = Q.fN2Bottom))) := by
  refine ⟨?_, ?_, rfl, ?_⟩
  · simp [activeFN2]
  · simp [activeFN2]
  · intro Q hQ
    have hsw : getSwitchDepth Q = 22 := by
      rw [getSwitchDepth, hQ]
      norm_num
    refine ⟨hsw, fun e => ?_⟩
    rcases le_or_lt e 22 with h | h
    · exact Or.inl ⟨h, by simp [activeFN2, hsw, h]⟩
    · exact Or.inr ⟨h, by simp [activeFN2, hsw, not_le.mpr h]⟩

/-- C7 witness: the theorem applied to a planner with a 50% deco gas, at a
depth above and a depth below the 22 m switch depth. -/
theorem C7_gas_selection_witness :
    activeFN2 (mkPlanner 40 20 10 19 15 200 30 70 21 (some 50)) false 30 =
      (mkPlanner 40 20 10 19 15 200 30 70 21 (some 50)).fN2Bottom ∧
    getSwitchDepth (mkPlanner 40 20 10 19 15 200 30 70 21 (some 50)) = 22 := by
  have h := C7_gas_selection (mkPlanner 40 20 10 19 15 200 30 70 21 (some 50)) 30
  refine ⟨h.1, ?_⟩
  exact (h.2.2.2 _ (by norm_num [mkPlanner])).1

/-! ## Claim C8 — the per-compartment tissue update -/

/-- C8: one `update` call with depth `d` (ambient pressure `d/10 + 1`), active
inert fraction `activeFN2 P deco d` and the fixed timestep sets compartment
`i`'s new pressure to `pAlv + (p_i - pAlv) * r_i` where
`pAlv = (pAmb - 0.0627) * fN2` and `r_i` is the decay factor standing for
`exp(-(ln 2 / halfLife_i) * dt)`; the new value of compartment `i` is a
function of the old value of compartment `i` alone, so no cross-compartment
coupling exists. -/
theorem C8_tissue_update (P : Planner) (r : List ℚ) (d t : ℚ) (deco : Bool)
    (s : SimState) (i : ℕ) (hi : i < 16)
    (hts : s.tissues.length = 16) (hr : r.length = 16) :
    (update P r d t deco s).tissues.getD i 0 =
      ((d / 10 + 1) - 627/10000) * activeFN2 P deco d +
        (s.tissues.getD i 0 - ((d / 10 + 1) - 627/10000) * activeFN2 P deco d) *
          r.getD i 0 := by
  unfold update
  dsimp only
  rw [getD_zipWith]
  · omega
  · omega

/-- C8 witness: the theorem applied to a concrete planner, decay factors and
state. -/
theorem C8_tissue_update_witness :
    (update (mkPlanner 40 20 10 19 15 200 30 70 21 none) (List.replicate 16 1)
        40 0 false initState).tissues.getD 0 0 =
      ((40 / 10 + 1) - 627/10000) *
          activeFN2 (mkPlanner 40 20 10 19 15 200 30 70 21 none) false 40 +
        (initState.tissues.getD 0 0 -
            ((40 / 10 + 1) - 627/10000) *
              activeFN2 (mkPlanner 40 20 10 19 15 200 30 70 21 none) false 40) *
          (List.replicate 16 (1:ℚ)).getD 0 0 :=
  C8_tissue_update _ _ _ _ _ _ 0 (by norm_num) (by simp [initState]) (by simp)

/-! ## Claim C9 — one sample per timestep, uniform time grid -/

/-- The uniform time grid `0, dt, 2·dt, …` of length `n`. -/
def timeGrid (n : ℕ) : List ℚ :=
  (List.range n).map (fun k : ℕ => (k : ℚ) * dt)

theorem timeGrid_succ (n : ℕ) :
    timeGrid (n + 1) = timeGrid n ++ [(n : ℚ) * dt] := by
  simp [timeGrid, List.range_succ]

theorem timeGrid_length (n : ℕ) : (timeGrid n).length = n := by
  simp [timeGrid]

theorem timeGrid_getD (n i : ℕ) (h : i < n) :
    (timeGrid n).getD i 0 = (i : ℚ) * dt := by
  have hlen : i < (timeGrid n).length := by
    rw [timeGrid_length]; exact h
  rw [List.getD_eq_getElem _ _ hlen]
  simp only [timeGrid, List.getElem_map, List.getElem_range]

/-- The log-shape invariant carried through every phase: the time series is the
uniform grid `0, dt, 2·dt, …`, the running clock equals the next grid point,
every per-sample series has the same length, and the 16 tissue histories all
have one entry per sample. -/
def LogShape (s : SimState) (t : ℚ) : Prop :=
  s.logTime = timeGrid s.logTime.length ∧
  t = (s.logTime.length : ℚ) * dt ∧
  s.logDepth.length = s.logTime.length ∧
  s.logPpo2.length = s.logTime.length ∧
  s.tissues.length = 16 ∧
  s.logTissues.length = 16 ∧
  ∀ l ∈ s.logTissues, l.length = s.logTime.length

theorem update_logShape (P : Planner) (r : List ℚ) (d t : ℚ) (dec : Bool)
    (s : SimState) (hr : r.length = 16) (h : LogShape s t) :
    LogShape (update P r d t dec s) (t + dt) := by
  obtain ⟨h1, h2, h3, h4, h5, h6, h7⟩ := h
  have hlen : (update P r d t dec s).logTime.length = s.logTime.length + 1 := by
    simp [update]
  refine ⟨?_, ?_, ?_, ?_, ?_, ?_, ?_⟩
  · rw [hlen, timeGrid_succ]
    show s.logTime ++ [t] = _
    rw [← h1, h2]
  · rw [hlen]
    push_cast
    rw [h2]
    ring
  · simp [update, h3]
  · simp [update, h4]
  · simp [update, List.length_zipWith, hr, h5]
  · simp [update, List.length_zipWith, hr, h5, h6]
  · intro l hmem
    simp only [update] at hmem
    rw [List.mem_iff_getElem] at hmem
    obtain ⟨i, hi, hval⟩ := hmem
    rw [List.getElem_zipWith] at hval
    rw [hlen, ← hval]
    simp only [List.length_append, List.length_singleton]
    have hi2 : i < s.logTissues.length := by
      simp only [List.length_zipWith] at hi
      omega
    rw [h7 (s.logTissues[i]) (List.getElem_mem hi2)]

theorem descentLoopF_logShape (P : Planner) (r : List ℚ) (hr : r.length = 16) :
    ∀ (fuel : ℕ) (currD t : ℚ) (s : SimState) (t1 : ℚ) (s1 : SimState),
      LogShape s t → descentLoopF P r fuel currD t s = some (t1, s1) →
      LogShape s1 t1 := by
  intro fuel
  induction fuel with
  | zero =>
    intro currD t s t1 s1 h hrun
    rw [descentLoopF] at hrun
    split at hrun
    · cases hrun
    · cases hrun
      exact h
  | succ n ih =>
    intro currD t s t1 s1 h hrun
    rw [descentLoopF] at hrun
    split at hrun
    · exact ih _ _ _ _ _ (update_logShape P r currD t false s hr h) hrun
    · cases hrun
      exact h

theorem bottomLoopF_logShape (P : Planner) (r : List ℚ) (tEnd : ℚ)
    (hr : r.length = 16) :
    ∀ (fuel : ℕ) (t : ℚ) (s : SimState) (t1 : ℚ) (s1 : SimState),
      LogShape s t → bottomLoopF P r tEnd fuel t s = some (t1, s1) →
      LogShape s1 t1 := by
  intro fuel
  induction fuel with
  | zero =>
    intro t s t1 s1 h hrun
    rw [bottomLoopF] at hrun
    split at hrun
    · cases hrun
    · cases hrun
      exact h
  | succ n ih =>
    intro t s t1 s1 h hrun
    rw [bottomLoopF] at hrun
    split at hrun
    · exact ih _ _ _ _ (update_logShape P r P.depth t false s hr h) hrun
    · cases hrun
      exact h

theorem ascentLoopF_logShape (P : Planner) (r : List ℚ) (hr : r.length = 16) :
    ∀ (fuel : ℕ) (currD t : ℚ) (s : SimState) (sF : SimState),
      LogShape s t → ascentLoopF P r fuel currD t s = some sF →
      ∃ tF, LogShape sF tF := by
  intro fuel
  induction fuel with
  | zero =>
    intro currD t s sF h hrun
    rw [ascentLoopF] at hrun
    split at hrun
    · cases hrun
    · cases hrun
      exact ⟨t, h⟩
  | succ n ih =>
    intro currD t s sF h hrun
    rw [ascentLoopF] at hrun
    split at hrun
    · dsimp only at hrun
      split at hrun
      · cases hrun
        exact ⟨t + dt, update_logShape P r _ t true s hr h⟩
      · exact ih _ _ _ _ (update_logShape P r _ t true s hr h) hrun
    · cases hrun
      exact ⟨t, h⟩

theorem initState_logShape : LogShape initState 0 := by
  refine ⟨rfl, by simp [initState], rfl, rfl, by simp [initState], by simp [initState], ?_⟩
  intro l hmem
  simp only [initState] at hmem ⊢
  rw [List.eq_of_mem_replicate hmem]

theorem run_eq_cases (P : Planner) (r : List ℚ) (fuel : ℕ) (s : SimState)
    (hrun : run P r fuel = some s) :
    ∃ t1 s1 t2 s2,
      descentLoopF P r fuel 0 0 initState = some (t1, s1) ∧
      bottomLoopF P r (t1 + P.bottomTime) fuel t1 s1 = some (t2, s2) ∧
      ascentLoopF P r fuel P.depth t2 s2 = some s := by
  rw [run] at hrun
  cases hd : descentLoopF P r fuel 0 0 initState with
  | none => rw [hd] at hrun; cases hrun
  | some p1 =>
    obtain ⟨t1, s1⟩ := p1
    rw [hd] at hrun
    simp only [bind, Option.bind] at hrun
    cases hb : bottomLoopF P r (t1 + P.bottomTime) fuel t1 s1 with
    | none => rw [hb] at hrun; cases hrun
    | some p2 =>
      obtain ⟨t2, s2⟩ := p2
      rw [hb] at hrun
      exact ⟨t1, s1, t2, s2, rfl, hb, hrun⟩

theorem run_logShape (P : Planner) (r : List ℚ) (fuel : ℕ) (s : SimState)
    (hr : r.length = 16) (hrun : run P r fuel = some s) :
    ∃ tF, LogShape s tF := by
  obtain ⟨t1, s1, t2, s2, hd, hb, ha⟩ := run_eq_cases P r fuel s hrun
  have h1 := descentLoopF_logShape P r hr fuel 0 0 initState t1 s1
    initState_logShape hd
  have h2 := bottomLoopF_logShape P r (t1 + P.bottomTime) hr fuel t1 s1
    t2 s2 h1 hb
  exact ascentLoopF_logShape P r hr fuel P.depth t2 s2 s h2 ha

/-- C9: whenever `run` returns a log, every phase's every timestep appended
exactly one sample — the time, depth and PPO2 series all have equal length,
there are exactly 16 tissue histories each with one entry per sample — and the
time series is the uniform grid `0, 0.1, 0.2, …`: consecutive entries differ by
exactly the fixed timestep `0.1` minutes, so the series is strictly
increasing.  The final conjunct states that a single `update` call appends
exactly one entry to each series. -/
theorem C9_log_grid (P : Planner) (r : List ℚ) (fuel : ℕ) (s : SimState)
    (hr : r.length = 16) (hrun : run P r fuel = some s) :
    s.logTime = timeGrid s.logTime.length ∧ dt = 1/10 ∧
    (∀ i, i + 1 < s.logTime.length →
      s.logTime.getD (i+1) 0 = s.logTime.getD i 0 + 1/10 ∧
      s.logTime.getD i 0 < s.logTime.getD (i+1) 0) ∧
    s.logDepth.length = s.logTime.length ∧
    s.logPpo2.length = s.logTime.length ∧
    s.logTissues.length = 16 ∧
    (∀ l ∈ s.logTissues, l.length = s.logTime.length) ∧
    (∀ (Q : Planner) (rq : List ℚ) (d t : ℚ) (dec : Bool) (st : SimState),
      (update Q rq d t dec st).logTime = st.logTime ++ [t] ∧
      (update Q rq d t dec st).logDepth = st.logDepth ++ [d] ∧
      (update Q rq d t dec st).logTime.length = st.logTime.length + 1 ∧
      (update Q rq d t dec st).logDepth.length = st.logDepth.length + 1 ∧
      (update Q rq d t dec st).logPpo2.length = st.logPpo2.length + 1) := by
  obtain ⟨tF, h1, h2, h3, h4, h5, h6, h7⟩ := run_logShape P r fuel s hr hrun
  have hgrid : ∀ i, i < s.logTime.length → s.logTime.getD i 0 = (i : ℚ) * (1/10) := by
    intro i hi
    conv_lhs => rw [h1]
    rw [timeGrid_getD _ _ hi]
    norm_num [dt]
  refine ⟨h1, rfl, ?_, h3, h4, h6, h7, ?_⟩
  · intro i hi
    have e1 := hgrid i (by omega)
    have e2 := hgrid (i+1) hi
    constructor
    · rw [e1, e2]
      push_cast
      ring
    · rw [e1, e2]
      push_cast
      nlinarith
  · intro Q rq d t dec st
    refine ⟨rfl, rfl, ?_, ?_, ?_⟩ <;> simp [update]

/-- The final state of a small concrete terminating run, used as the C9
witness input. -/
def s9 : SimState :=
  (run (mkPlanner 3 (21/20) 10 19 15 200 30 70 21 none)
    (List.replicate 16 1) 40).getD initState

set_option maxRecDepth 200000 in
/-- C9 witness: a concrete terminating run satisfying the hypotheses, with the
grid property of its log obtained from the theorem. -/
theorem C9_log_grid_witness :
    run (mkPlanner 3 (21/20) 10 19 15 200 30 70 21 none)
        (List.replicate 16 1) 40 = some s9 ∧
    s9.logTime = timeGrid s9.logTime.length := by
  have hsome : run (mkPlanner 3 (21/20) 10 19 15 200 30 70 21 none)
      (List.replicate 16 1) 40 = some s9 := by
    with_unfolding_all rfl
  exact ⟨hsome, (C9_log_grid (mkPlanner 3 (21/20) 10 19 15 200 30 70 21 none)
    (List.replicate 16 1) 40 s9 (by simp) hsome).1⟩

/-! ## Claim C3 — configuration validation -/

set_option maxRecDepth 200000 in
/-- C3 counterexample: an invalid configuration (`gfLow = 80 > gfHigh = 30`,
violating `gfLow ≤ gfHigh`) is accepted without any error: the constructor
produces a planner whose stored `gfHigh` is below its `gfLow`, and `run()`
still executes the simulation, logging six samples.  No error value exists
anywhere in the interface — the embedded constructor and `run` are total
functions into `Planner` and logs, exactly like the source, which contains no
validation code at all. -/
theorem C3_validation_cex :
    (mkPlanner 3 (1/10) 10 19 15 200 80 30 21 none).gfHigh <
      (mkPlanner 3 (1/10) 10 19 15 200 80 30 21 none).gfLow ∧
    (run (mkPlanner 3 (1/10) 10 19 15 200 80 30 21 none)
        (List.replicate 16 1) 40).isSome = true ∧
    (run (mkPlanner 3 (1/10) 10 19 15 200 80 30 21 none)
        (List.replicate 16 1) 40).elim 0 (fun s => s.logTime.length) = 6 := by
  refine ⟨by norm_num [mkPlanner], ?_, ?_⟩
  · with_unfolding_all rfl
  · with_unfolding_all rfl

/-- C3 amended: no validation is performed at all.  For every parameter tuple
— valid or invalid — the constructor succeeds (it is a total function with no
error output), and whenever the configured depth is positive, `run()` begins
stepping: the descent loop enters its body on its first iteration and appends
the first log sample at time 0 and depth 0, regardless of how invalid the
oxygen fractions, gradient factors, rates or volumes are. -/
theorem C3_no_validation (depth bottomTime vUp sac tankV pDep gfLowP gfHighP
    fO2P : ℚ) (fO2D : Option ℚ) (r : List ℚ) (fuel : ℕ) (hd : 0 < depth) :
    (mkPlanner depth bottomTime vUp sac tankV pDep gfLowP gfHighP fO2P
      fO2D).depth = depth ∧
    descentLoopF (mkPlanner depth bottomTime vUp sac tankV pDep gfLowP gfHighP
        fO2P fO2D) r (fuel + 1) 0 0 initState =
      descentLoopF (mkPlanner depth bottomTime vUp sac tankV pDep gfLowP
          gfHighP fO2P fO2D) r fuel (0 + 15 * dt) (0 + dt)
        (update (mkPlanner depth bottomTime vUp sac tankV pDep gfLowP gfHighP
          fO2P fO2D) r 0 0 false initState) ∧
    (update (mkPlanner depth bottomTime vUp sac tankV pDep gfLowP gfHighP fO2P
      fO2D) r 0 0 false initState).logTime = [0] := by
  refine ⟨rfl, ?_, ?_⟩
  · conv_lhs => rw [descentLoopF]
    rw [if_pos]
    show (0 : ℚ) < depth
    exact hd
  · show initState.logTime ++ [0] = [0]
    rfl

/-- C3 witness: the amended theorem applied to a concretely invalid
configuration (zero oxygen fraction, inverted gradient factors, negative SAC
and tank volume): construction succeeds and the first simulation step runs. -/
theorem C3_no_validation_witness :
    (mkPlanner 3 (1/10) 10 (-19) (-15) 200 80 30 0 none).depth = 3 ∧
    descentLoopF (mkPlanner 3 (1/10) 10 (-19) (-15) 200 80 30 0 none)
        (List.replicate 16 1) (5 + 1) 0 0 initState =
      descentLoopF (mkPlanner 3 (1/10) 10 (-19) (-15) 200 80 30 0 none)
        (List.replicate 16 1) 5 (0 + 15 * dt) (0 + dt)
        (update (mkPlanner 3 (1/10) 10 (-19) (-15) 200 80 30 0 none)
          (List.replicate 16 1) 0 0 false initState) ∧
    (update (mkPlanner 3 (1/10) 10 (-19) (-15) 200 80 30 0 none)
      (List.replicate 16 1) 0 0 false initState).logTime = [0] :=
  C3_no_validation 3 (1/10) 10 (-19) (-15) 200 80 30 0 none
    (List.replicate 16 1) 5 (by norm_num)

/-! ## Claim C1 — state of the simulation when the ascent loop ends

The ascent loop exits only with `currD = 0`; the analysis below shows that at
that moment the ceiling recomputed at depth 0 over the updated tissues is `0`.
The proof carries a depth/tissue invariant: all ascent depths stay within
`[0, Dstar]` (the dive depth rounded up to a stop multiple) and all tissue
pressures stay below a cap `Tcap` tied to the deepest alveolar pressure. -/

/-- Decay-factor validity: sixteen factors, each in `[0, 1]` (the true factors
`exp(-(ln 2 / hl i) * dt)` satisfy this). -/
def ValidR (r : List ℚ) : Prop :=
  r.length = 16 ∧ ∀ x ∈ r, 0 ≤ x ∧ x ≤ 1

theorem coeff_facts :
    ∀ ab ∈ aC.zip bC, 0 ≤ ab.1 ∧ 0 < ab.2 ∧ ab.2 ≤ 1 ∧ 0 < ab.1 + 1/ab.2 - 1 := by
  simp only [aC, bC, List.zip_cons_cons, List.zip_nil_right, List.forall_mem_cons,
    List.not_mem_nil, false_implies, implies_true, and_true]
  norm_num

theorem den_ge_one (gf b : ℚ) (hgf : 0 ≤ gf) (hb0 : 0 < b) (hb1 : b ≤ 1) :
    1 ≤ gf / b + 1 - gf := by
  have h : gf ≤ gf / b := by
    rw [le_div_iff hb0]
    exact mul_le_of_le_one_right hgf hb1
  linarith

theorem getCeiling_eq (P : Planner) (T : List ℚ) (d : ℚ) :
    getCeiling P T d =
      max 0 ((listMax (List.zipWith
        (fun p ab => (p - ab.1 * gfAt P d) / (gfAt P d / ab.2 + 1 - gfAt P d))
        T (aC.zip bC)) - 1) * 10) := rfl

theorem ascentStep_snd_eq (P : Planner) (r : List ℚ) (currD t : ℚ)
    (s : SimState) :
    (ascentStep P r currD t s).2 =
      update P r (ascentStep P r currD t s).1 t true s := rfl

theorem nextStop_nonneg (c : ℚ) (h0 : 0 ≤ c) : 0 ≤ nextStop c := by
  unfold nextStop
  have : (0:ℤ) ≤ ⌈c / 3⌉ := Int.ceil_nonneg (by positivity)
  have h2 : (0:ℚ) ≤ (⌈c / 3⌉ : ℚ) := by exact_mod_cast this
  linarith

/-- The pathological configuration: 40 m, 0.1 min bottom time, ascent rate
0.001 m/min, SAC 1, tank 1 L, 200 bar, gradient factors 1/1 (percent), bottom
gas 1% oxygen, no deco gas. -/
def Pbad : Planner := mkPlanner 40 (1/10) (1/1000) 1 1 200 1 1 1 none

/-- The fast (4-minute) compartment's current pressure. -/
def headT (s : SimState) : ℚ := s.tissues.getD 0 0

theorem Pbad_depth : Pbad.depth = 40 := rfl

theorem Pbad_vUp : Pbad.vUp = 1/1000 := rfl

theorem Pbad_fN2 (dec : Bool) (d : ℚ) : activeFN2 Pbad dec d = 99/100 := by
  unfold activeFN2
  split_ifs <;> norm_num [Pbad, mkPlanner]

theorem Pbad_gfAt (d : ℚ) : gfAt Pbad d = 1/100 := by
  unfold gfAt
  norm_num [Pbad, mkPlanner]

theorem ceil_elem_le_cap (p gf a b cap : ℚ) (hcap : 0 ≤ cap)
    (hp : p ≤ cap) (hgf : 0 ≤ gf) (ha : 0 ≤ a) (hb0 : 0 < b) (hb1 : b ≤ 1) :
    (p - a * gf) / (gf / b + 1 - gf) ≤ cap := by
  have hden := den_ge_one gf b hgf hb0 hb1
  rcases le_or_lt (p - a * gf) 0 with hnum | hnum
  · exact le_trans (div_nonpos_of_nonpos_of_nonneg hnum (by linarith)) hcap
  · calc (p - a * gf) / (gf / b + 1 - gf) ≤ p - a * gf :=
        div_le_self (le_of_lt hnum) hden
      _ ≤ p := by nlinarith
      _ ≤ cap := hp

theorem getCeiling_le_cap (P : Planner) (T : List ℚ) (d cap : ℚ)
    (hgf0 : 0 ≤ gfAt P d) (hcap : 0 ≤ cap) (hlen : T.length = 16)
    (hT : ∀ x ∈ T, x ≤ cap) :
    getCeiling P T d ≤ max 0 ((cap - 1) * 10) := by
  rw [getCeiling_eq]
  have hne : (List.zipWith
      (fun p ab => (p - ab.1 * gfAt P d) / (gfAt P d / ab.2 + 1 - gfAt P d))
      T (aC.zip bC)) ≠ [] := by
    intro hcon
    have : (List.zipWith
        (fun p ab => (p - ab.1 * gfAt P d) / (gfAt P d / ab.2 + 1 - gfAt P d))
        T (aC.zip bC)).length = 16 := by
      simp [List.length_zipWith, hlen, List.length_zip, length_aC, length_bC]
    rw [hcon] at this
    simp at this
  have hmax : listMax (List.zipWith
      (fun p ab => (p - ab.1 * gfAt P d) / (gfAt P d / ab.2 + 1 - gfAt P d))
      T (aC.zip bC)) ≤ cap := by
    rw [listMax_le_iff _ _ hne]
    intro x hx
    rw [List.mem_iff_getElem] at hx
    obtain ⟨i, hi, hval⟩ := hx
    rw [List.getElem_zipWith] at hval
    have hiz : i < (aC.zip bC).length := by
      simp only [List.length_zipWith] at hi
      simp [List.length_zip, length_aC, length_bC]
      simp only [List.length_zip, length_aC, length_bC] at hi ⊢
      omega
    have hit : i < T.length := by
      simp only [List.length_zipWith] at hi
      omega
    have hcf := coeff_facts ((aC.zip bC)[i]) (List.getElem_mem hiz)
    have hp := hT _ (List.getElem_mem hit)
    rw [← hval]
    exact ceil_elem_le_cap _ _ _ _ _ hcap hp hgf0 hcf.1 hcf.2.1 hcf.2.2.1
  apply max_le_max le_rfl
  nlinarith [hmax]

theorem update_headT (P : Planner) (r : List ℚ) (d t : ℚ) (dec : Bool)
    (s : SimState) (hts : s.tissues.length = 16) (hr : r.length = 16) :
    headT (update P r d t dec s) =
      (d / 10 + 1 - 627/10000) * activeFN2 P dec d +
        (headT s - (d / 10 + 1 - 627/10000) * activeFN2 P dec d) *
          r.getD 0 0 := by
  unfold headT
  exact C8_tissue_update P r d t dec s 0 (by norm_num) hts hr

/-- Two-sided tissue bounds carried through descent and bottom on the
pathological configuration. -/
def Bad0Inv (s : SimState) : Prop :=
  s.tissues.length = 16 ∧ ∀ x ∈ s.tissues, 79/100 ≤ x ∧ x ≤ 4888/1000

theorem update_Bad0Inv (r : List ℚ) (d t : ℚ) (dec : Bool) (s : SimState)
    (hr : ValidR r) (hT : Bad0Inv s) (h0 : 0 ≤ d) (h1 : d ≤ 40) :
    Bad0Inv (update Pbad r d t dec s) := by
  obtain ⟨hlen, hbound⟩ := hT
  obtain ⟨hrlen, hrbound⟩ := hr
  constructor
  · simp [update, List.length_zipWith, hlen, hrlen]
  · intro x hx
    simp only [update] at hx
    rw [List.mem_iff_getElem] at hx
    obtain ⟨i, hi, hval⟩ := hx
    rw [List.getElem_zipWith] at hval
    have hit : i < s.tissues.length := by
      simp only [List.length_zipWith] at hi; omega
    have hir : i < r.length := by
      simp only [List.length_zipWith] at hi; omega
    have hp := hbound _ (List.getElem_mem hit)
    have hri := hrbound _ (List.getElem_mem hir)
    have hA : activeFN2 Pbad dec d = 99/100 := Pbad_fN2 dec d
    have hAlow : 79/100 ≤ (d / 10 + 1 - 627/10000) * activeFN2 Pbad dec d := by
      rw [hA]; nlinarith
    have hAhigh : (d / 10 + 1 - 627/10000) * activeFN2 Pbad dec d ≤ 4888/1000 := by
      rw [hA]; nlinarith
    constructor
    · rw [← hval]
      nlinarith [mul_nonneg (sub_nonneg.mpr hp.1) hri.1,
        mul_nonneg (sub_nonneg.mpr hAlow) (sub_nonneg.mpr hri.2)]
    · rw [← hval]
      nlinarith [mul_nonneg (sub_nonneg.mpr hp.2) hri.1,
        mul_nonneg (sub_nonneg.mpr hAhigh) (sub_nonneg.mpr hri.2)]

theorem descentLoopF_Bad0Inv (r : List ℚ) (hr : ValidR r) :
    ∀ (fuel : ℕ) (currD t : ℚ) (s : SimState) (t1 : ℚ) (s1 : SimState),
      0 ≤ currD → Bad0Inv s →
      descentLoopF Pbad r fuel currD t s = some (t1, s1) → Bad0Inv s1 := by
  intro fuel
  induction fuel with
  | zero =>
    intro currD t s t1 s1 h0 hT hrun
    rw [descentLoopF] at hrun
    split at hrun
    · cases hrun
    · cases hrun
      exact hT
  | succ n ih =>
    intro currD t s t1 s1 h0 hT hrun
    rw [descentLoopF] at hrun
    split at hrun
    next hcd =>
      rw [Pbad_depth] at hcd
      exact ih _ _ _ _ _ (by norm_num [dt]; linarith)
        (update_Bad0Inv r currD t false s hr hT h0 (le_of_lt hcd)) hrun
    · cases hrun
      exact hT

theorem bottomLoopF_Bad0Inv (r : List ℚ) (tEnd : ℚ) (hr : ValidR r) :
    ∀ (fuel : ℕ) (t : ℚ) (s : SimState) (t1 : ℚ) (s1 : SimState),
      Bad0Inv s → bottomLoopF Pbad r tEnd fuel t s = some (t1, s1) →
      Bad0Inv s1 := by
  intro fuel
  induction fuel with
  | zero =>
    intro t s t1 s1 hT hrun
    rw [bottomLoopF] at hrun
    split at hrun
    · cases hrun
    · cases hrun
      exact hT
  | succ n ih =>
    intro t s t1 s1 hT hrun
    rw [bottomLoopF] at hrun
    split at hrun
    · refine ih _ _ _ _ ?_ hrun
      have h40 : Pbad.depth = 40 := rfl
      have := update_Bad0Inv r Pbad.depth t false s hr hT
        (by rw [h40]; norm_num) (by rw [h40])
      exact this
    · cases hrun
      exact hT

theorem ascentStep_fst_three (P : Planner) (r : List ℚ) (currD t : ℚ)
    (s : SimState) :
    ((ascentStep P r currD t s).1 = nextStop (getCeiling P s.tissues currD) ∧
      currD - P.vUp * dt < nextStop (getCeiling P s.tissues currD)) ∨
    ((ascentStep P r currD t s).1 = currD - P.vUp * dt ∧
      nextStop (getCeiling P s.tissues currD) ≤ currD - P.vUp * dt) ∨
    ((ascentStep P r currD t s).1 = nextStop (getCeiling P s.tissues currD) ∧
      currD ≤ nextStop (getCeiling P s.tissues currD)) := by
  unfold ascentStep
  dsimp only
  split_ifs with h1 h2
  · exact Or.inl ⟨rfl, h2⟩
  · exact Or.inr (Or.inl ⟨rfl, le_of_not_lt h2⟩)
  · exact Or.inr (Or.inr ⟨rfl, le_of_not_lt h1⟩)

theorem validR_getD0 (r : List ℚ) (hr : ValidR r) :
    0 ≤ r.getD 0 0 ∧ r.getD 0 0 ≤ 1 := by
  obtain ⟨hlen, hb⟩ := hr
  have h0 : 0 < r.length := by omega
  rw [List.getD_eq_getElem r 0 h0]
  exact hb _ (List.getElem_mem h0)

theorem headT_mem (s : SimState) (hlen : s.tissues.length = 16) :
    headT s ∈ s.tissues := by
  unfold headT
  have h0 : 0 < s.tissues.length := by omega
  rw [List.getD_eq_getElem _ 0 h0]
  exact List.getElem_mem h0

/-- The pathological ascent invariant: 16 compartments capped at `4.888`,
depth at most 40 m, and either (phase 1) after `k ≤ 70` steps the depth has
descended at most `k/10000` below 40 m while the fast compartment has loaded
to at least `4.8872 - 4.1·(999/1000)^k`, or (phase 2) the depth is at least
3 m and the fast compartment at least `1.03` bar — which keeps the ceiling
strictly positive forever. -/
def BadInv (currD : ℚ) (s : SimState) : Prop :=
  s.tissues.length = 16 ∧ currD ≤ 40 ∧ (∀ x ∈ s.tissues, x ≤ 4888/1000) ∧
  ((∃ k : ℕ, k ≤ 70 ∧ 40 - (k : ℚ)/10000 ≤ currD ∧
      48872/10000 - (41/10) * (999/1000)^k ≤ headT s) ∨
   (3 ≤ currD ∧ 103/100 ≤ headT s))

theorem BadInv_pos (currD : ℚ) (s : SimState) (h : BadInv currD s) :
    0 < currD := by
  obtain ⟨-, -, -, hAB⟩ := h
  rcases hAB with ⟨k, hk, hcu, -⟩ | ⟨hcu, -⟩
  · have hkq : (k : ℚ) ≤ 70 := by exact_mod_cast hk
    linarith
  · linarith

theorem update_upperInv (r : List ℚ) (d t : ℚ) (dec : Bool) (s : SimState)
    (hr : ValidR r) (hlen : s.tissues.length = 16)
    (hub : ∀ x ∈ s.tissues, x ≤ 4888/1000) (h0 : 0 ≤ d) (h1 : d ≤ 40) :
    (update Pbad r d t dec s).tissues.length = 16 ∧
    ∀ x ∈ (update Pbad r d t dec s).tissues, x ≤ 4888/1000 := by
  obtain ⟨hrlen, hrbound⟩ := hr
  constructor
  · simp [update, List.length_zipWith, hlen, hrlen]
  · intro x hx
    simp only [update] at hx
    rw [List.mem_iff_getElem] at hx
    obtain ⟨i, hi, hval⟩ := hx
    rw [List.getElem_zipWith] at hval
    have hit : i < s.tissues.length := by
      simp only [List.length_zipWith] at hi; omega
    have hir : i < r.length := by
      simp only [List.length_zipWith] at hi; omega
    have hp := hub _ (List.getElem_mem hit)
    have hri := hrbound _ (List.getElem_mem hir)
    have hA : activeFN2 Pbad dec d = 99/100 := Pbad_fN2 dec d
    have hAhigh : (d / 10 + 1 - 627/10000) * activeFN2 Pbad dec d ≤ 4888/1000 := by
      rw [hA]; nlinarith
    rw [← hval]
    nlinarith [mul_nonneg (sub_nonneg.mpr hp) hri.1,
      mul_nonneg (sub_nonneg.mpr hAhigh) (sub_nonneg.mpr hri.2)]

theorem badB_ceiling_pos (currD : ℚ) (s : SimState)
    (hlen : s.tissues.length = 16) (hT103 : 103/100 ≤ headT s) :
    0 < getCeiling Pbad s.tissues currD := by
  have hne : s.tissues ≠ [] := by
    intro hcon; rw [hcon] at hlen; simp at hlen
  obtain ⟨T0, Trest, hTeq⟩ := List.exists_cons_of_ne_nil hne
  have hT0 : 103/100 ≤ T0 := by
    unfold headT at hT103
    rw [hTeq] at hT103
    simpa using hT103
  rw [getCeiling_eq, hTeq]
  have hzip : aC.zip bC = (12599/10000, 5050/10000) ::
      (aC.tail.zip bC.tail) := by
    simp [aC, bC]
  rw [hzip, List.zipWith_cons_cons]
  set g := gfAt Pbad currD with hg
  have hgval : g = 1/100 := Pbad_gfAt currD
  set c0 := (T0 - (12599/10000, 5050/10000).1 * g) /
    (g / (12599/10000, 5050/10000).2 + 1 - g) with hc0
  have hc0val : 1 < c0 := by
    rw [hc0, hgval]
    dsimp only
    have hden : (1/100 : ℚ) / (5050/10000) + 1 - 1/100 = 10199/10100 := by
      norm_num
    rw [hden]
    rw [lt_div_iff (by norm_num : (0:ℚ) < 10199/10100)]
    linarith
  have hle : c0 ≤ listMax (c0 :: List.zipWith
      (fun p ab => (p - ab.1 * g) / (g / ab.2 + 1 - g)) Trest
      (aC.tail.zip bC.tail)) := by
    show c0 ≤ (List.zipWith
      (fun p ab => (p - ab.1 * g) / (g / ab.2 + 1 - g)) Trest
      (aC.tail.zip bC.tail)).foldl max c0
    exact le_foldl_max _ _
  calc (0:ℚ) < (c0 - 1) * 10 := by linarith
    _ ≤ (listMax (c0 :: List.zipWith
        (fun p ab => (p - ab.1 * g) / (g / ab.2 + 1 - g)) Trest
        (aC.tail.zip bC.tail)) - 1) * 10 := by linarith
    _ ≤ _ := le_max_right _ _

theorem badB_ns_ge_three (currD : ℚ) (s : SimState)
    (hlen : s.tissues.length = 16) (hT103 : 103/100 ≤ headT s) :
    3 ≤ nextStop (getCeiling Pbad s.tissues currD) := by
  have hpos := badB_ceiling_pos currD s hlen hT103
  unfold nextStop
  have h1 : (0:ℤ) < ⌈getCeiling Pbad s.tissues currD / 3⌉ := by
    rw [Int.lt_ceil]
    positivity
  have h2 : (1:ℚ) ≤ (⌈getCeiling Pbad s.tissues currD / 3⌉ : ℚ) := by
    exact_mod_cast h1
  linarith

theorem bad_ceiling_le (currD : ℚ) (s : SimState)
    (hlen : s.tissues.length = 16) (hub : ∀ x ∈ s.tissues, x ≤ 4888/1000) :
    getCeiling Pbad s.tissues currD ≤ 3888/100 := by
  have h := getCeiling_le_cap Pbad s.tissues currD (4888/1000)
    (by rw [Pbad_gfAt]; norm_num) (by norm_num) hlen hub
  have hmax : max (0:ℚ) ((4888/1000 - 1) * 10) = 3888/100 := by norm_num
  rw [hmax] at h
  exact h

theorem bad_ns_le (c : ℚ) (hc : c ≤ 3888/100) : nextStop c ≤ 39 := by
  unfold nextStop
  have h1 : ⌈c / 3⌉ ≤ 13 := by
    rw [Int.ceil_le]
    push_cast
    linarith
  have h2 : (⌈c / 3⌉ : ℚ) ≤ 13 := by exact_mod_cast h1
  linarith

theorem bad_stepB (r : List ℚ) (hr : ValidR r) (currD t : ℚ) (s : SimState)
    (hlen : s.tissues.length = 16) (hle40 : currD ≤ 40)
    (hub : ∀ x ∈ s.tissues, x ≤ 4888/1000)
    (hc3 : 3 ≤ currD) (hT103 : 103/100 ≤ headT s) :
    0 < (ascentStep Pbad r currD t s).1 ∧
    BadInv (ascentStep Pbad r currD t s).1 (ascentStep Pbad r currD t s).2 := by
  have hrv := validR_getD0 r hr
  have hceil_le := bad_ceiling_le currD s hlen hub
  have hc0 : (0:ℚ) ≤ getCeiling Pbad s.tissues currD := le_max_left _ _
  have hns39 := bad_ns_le _ hceil_le
  have hns3 := badB_ns_ge_three currD s hlen hT103
  have hvd : Pbad.vUp * dt = 1/10000 := by norm_num [Pbad, mkPlanner, dt]
  have h3 := ascentStep_fst_three Pbad r currD t s
  set cD := (ascentStep Pbad r currD t s).1 with hcD
  have hgeNs : nextStop (getCeiling Pbad s.tissues currD) ≤ cD := by
    rcases h3 with ⟨he, _⟩ | ⟨he, hge⟩ | ⟨he, _⟩
    · rw [he]
    · rw [he]; exact hge
    · rw [he]
  have hle40' : cD ≤ 40 := by
    rcases h3 with ⟨he, _⟩ | ⟨he, _⟩ | ⟨he, _⟩
    · rw [he]; linarith
    · rw [he, hvd]; linarith
    · rw [he]; linarith
  have hc3' : 3 ≤ cD := le_trans hns3 hgeNs
  have hup := update_upperInv r cD t true s hr hlen hub (by linarith) hle40'
  have hHeq := update_headT Pbad r cD t true s hlen hr.1
  rw [Pbad_fN2] at hHeq
  have hpAlv2 : 103/100 ≤ (cD/10 + 1 - 627/10000) * (99/100) := by nlinarith
  have hhead : 103/100 ≤ headT (update Pbad r cD t true s) := by
    rw [hHeq]
    nlinarith [mul_nonneg (sub_nonneg.mpr hpAlv2) (sub_nonneg.mpr hrv.2),
      mul_nonneg (sub_nonneg.mpr hT103) hrv.1]
  have hsnd : (ascentStep Pbad r currD t s).2 = update Pbad r cD t true s :=
    ascentStep_snd_eq Pbad r currD t s
  refine ⟨by linarith, ?_, hle40', ?_, Or.inr ⟨hc3', ?_⟩⟩
  · rw [hsnd]; exact hup.1
  · rw [hsnd]; exact hup.2
  · rw [hsnd]; exact hhead

theorem bad_step_BadInv (r : List ℚ) (hr : ValidR r)
    (hr0 : r.getD 0 0 ≤ 999/1000) (currD t : ℚ) (s : SimState)
    (hI : BadInv currD s) :
    0 < (ascentStep Pbad r currD t s).1 ∧
    BadInv (ascentStep Pbad r currD t s).1 (ascentStep Pbad r currD t s).2 := by
  obtain ⟨hlen, hle40, hub, hAB⟩ := hI
  rcases hAB with ⟨k, hk70, hkcu, hkT⟩ | ⟨hc3, hT103⟩
  · by_cases hk : k = 70
    · subst hk
      have hpow : (41/10 : ℚ) * (999/1000)^70 ≤ 38572/10000 := by norm_num
      have hT103 : 103/100 ≤ headT s := by linarith
      have hc3 : 3 ≤ currD := by
        have hc : ((70:ℕ) : ℚ) = 70 := by norm_num
        rw [hc] at hkcu
        linarith
      exact bad_stepB r hr currD t s hlen hle40 hub hc3 hT103
    · have hklt : k < 70 := lt_of_le_of_ne hk70 hk
      have hrv := validR_getD0 r hr
      have hceil_le := bad_ceiling_le currD s hlen hub
      have hc0 : (0:ℚ) ≤ getCeiling Pbad s.tissues currD := le_max_left _ _
      have hns0 : 0 ≤ nextStop (getCeiling Pbad s.tissues currD) :=
        nextStop_nonneg _ hc0
      have hns39 := bad_ns_le _ hceil_le
      have hvd : Pbad.vUp * dt = 1/10000 := by norm_num [Pbad, mkPlanner, dt]
      have h3 := ascentStep_fst_three Pbad r currD t s
      set cD := (ascentStep Pbad r currD t s).1 with hcD
      have hgeSub : currD - 1/10000 ≤ cD := by
        rcases h3 with ⟨he, hlt⟩ | ⟨he, _⟩ | ⟨he, hge⟩
        · rw [he]; rw [hvd] at hlt; linarith
        · rw [he, hvd]
        · rw [he]; linarith
      have hgeNs : nextStop (getCeiling Pbad s.tissues currD) ≤ cD := by
        rcases h3 with ⟨he, _⟩ | ⟨he, hge⟩ | ⟨he, _⟩
        · rw [he]
        · rw [he]; exact hge
        · rw [he]
      have hle40' : cD ≤ 40 := by
        rcases h3 with ⟨he, _⟩ | ⟨he, _⟩ | ⟨he, _⟩
        · rw [he]; linarith
        · rw [he, hvd]; linarith
        · rw [he]; linarith
      have hkq : (k:ℚ) ≤ 70 := by exact_mod_cast hk70
      have hkq1 : (k:ℚ) + 1 ≤ 70 := by
        have : (k:ℚ) + 1 = ((k+1 : ℕ) : ℚ) := by push_cast; ring
        rw [this]
        exact_mod_cast hklt
      have hcu' : 40 - ((k:ℚ)+1)/10000 ≤ cD := by linarith
      have hcd_lb : 399930/10000 ≤ cD := by linarith
      have hcD0 : (0:ℚ) ≤ cD := by linarith
      have hup := update_upperInv r cD t true s hr hlen hub hcD0 hle40'
      have hHeq := update_headT Pbad r cD t true s hlen hr.1
      rw [Pbad_fN2] at hHeq
      have hpAlv : 48872/10000 ≤ (cD/10 + 1 - 627/10000) * (99/100) := by
        nlinarith
      have hρk : (0:ℚ) ≤ (999/1000)^k := by positivity
      have hsucc : (999/1000:ℚ)^(k+1) = (999/1000)^k * (999/1000) :=
        pow_succ _ _
      have hhead : 48872/10000 - (41/10) * (999/1000)^(k+1) ≤
          headT (update Pbad r cD t true s) := by
        rw [hHeq, hsucc]
        nlinarith [mul_nonneg (sub_nonneg.mpr hpAlv) (sub_nonneg.mpr hrv.2),
          mul_nonneg (sub_nonneg.mpr hkT) hrv.1,
          mul_nonneg hρk (sub_nonneg.mpr hr0)]
      have hsnd : (ascentStep Pbad r currD t s).2 = update Pbad r cD t true s :=
        ascentStep_snd_eq Pbad r currD t s
      refine ⟨by linarith, ?_, hle40', ?_, Or.inl ⟨k+1, by omega, ?_, ?_⟩⟩
      · rw [hsnd]; exact hup.1
      · rw [hsnd]; exact hup.2
      · push_cast
        linarith
      · rw [hsnd]; exact hhead
  · exact bad_stepB r hr currD t s hlen hle40 hub hc3 hT103

theorem bad_ascent_none (r : List ℚ) (hr : ValidR r)
    (hr0 : r.getD 0 0 ≤ 999/1000) :
    ∀ (fuel : ℕ) (currD t : ℚ) (s : SimState), BadInv currD s →
      ascentLoopF Pbad r fuel currD t s = none := by
  intro fuel
  induction fuel with
  | zero =>
    intro currD t s hI
    rw [ascentLoopF, if_pos (BadInv_pos currD s hI)]
  | succ n ih =>
    intro currD t s hI
    rw [ascentLoopF, if_pos (BadInv_pos currD s hI)]
    dsimp only
    have hstep := bad_step_BadInv r hr hr0 currD t s hI
    rw [if_neg]
    · exact ih _ _ _ hstep.2
    · intro hcon
      exact absurd hcon.1 (ne_of_gt hstep.1)

theorem initState_Bad0Inv : Bad0Inv initState := by
  constructor
  · simp [initState]
  · intro x hx
    simp only [initState] at hx
    rw [List.eq_of_mem_replicate hx]
    norm_num

/-- C2: the loop driving the ascent phase carries no iteration or elapsed-time
cap, and no incomplete-decompression condition can be reported — the interface
has no error output at all.  On the pathological valid configuration `Pbad`
(40 m, 1% oxygen, gradient factors 0.01/0.01, ascent rate 0.001 m/min) the
ascent loop never terminates: for every fuel bound the fueled embedding
returns `none`.  This holds for every decay-factor list in `[0,1]` whose
entry for the fast compartment is at most `999/1000`; the source's value
`exp(-(ln 2 / 4) * 0.1) = 2 ^ (-1/40) ≈ 0.9828` satisfies this. -/
theorem C2_no_cap (r : List ℚ) (hr : ValidR r) (hr0 : r.getD 0 0 ≤ 999/1000)
    (fuel : ℕ) : run Pbad r fuel = none := by
  rw [run]
  cases hd : descentLoopF Pbad r fuel 0 0 initState with
  | none => rfl
  | some p1 =>
    obtain ⟨t1, s1⟩ := p1
    simp only [bind, Option.bind]
    have hB1 : Bad0Inv s1 := descentLoopF_Bad0Inv r hr fuel 0 0 initState t1 s1
      le_rfl initState_Bad0Inv hd
    cases hb : bottomLoopF Pbad r (t1 + Pbad.bottomTime) fuel t1 s1 with
    | none => rfl
    | some p2 =>
      obtain ⟨t2, s2⟩ := p2
      have hB2 : Bad0Inv s2 := bottomLoopF_Bad0Inv r (t1 + Pbad.bottomTime) hr
        fuel t1 s1 t2 s2 hB1 hb
      apply bad_ascent_none r hr hr0
      refine ⟨hB2.1, by rw [Pbad_depth], ?_, Or.inl ⟨0, by norm_num, ?_, ?_⟩⟩
      · intro x hx
        exact (hB2.2 x hx).2
      · rw [Pbad_depth]
        norm_num
      · have := (hB2.2 _ (headT_mem s2 hB2.1)).1
        norm_num
        linarith

/-- C2 witness: concrete decay factors (the fast compartment's at `0.983`, the
rest at 1) and a concrete fuel bound; `run` on the pathological configuration
does not complete. -/
theorem C2_no_cap_witness :
    run Pbad ((983/1000) :: List.replicate 15 1) 5 = none := by
  apply C2_no_cap
  · constructor
    · simp
    · intro x hx
      rcases List.mem_cons.mp hx with h | h
      · rw [h]; norm_num
      · rw [List.eq_of_mem_replicate h]
        norm_num
  · show ((983:ℚ)/1000 :: List.replicate 15 1).getD 0 0 ≤ 999/1000
    norm_num

/-! ## Claim C10 — consumption monotonicity

Consumption is accumulated once per 0.1-min sample, so a bottom-time increase
too small to add a bottom sample leaves the whole run unchanged: the planners
with bottom times 1.05 and 1.06 min produce identical logs.  The development
below proves that run-level equality, and then the strict monotonicity that
does hold: the consumption accumulated through the end of the bottom phase
strictly increases when the bottom time grows by a full timestep and when the
target depth grows. -/

theorem descentLoopF_grid (P : Planner) (r : List ℚ) :
    ∀ (fuel : ℕ) (currD : ℚ) (j0 : ℕ) (s : SimState) (out : ℚ × SimState),
      descentLoopF P r fuel currD ((j0:ℚ)/10) s = some out →
      ∃ j1 : ℕ, out.1 = (j1:ℚ)/10 := by
  intro fuel
  induction fuel with
  | zero =>
    intro currD j0 s out h
    rw [descentLoopF] at h
    split at h
    · cases h
    · cases h
      exact ⟨j0, rfl⟩
  | succ n ih =>
    intro currD j0 s out h
    rw [descentLoopF] at h
    split at h
    · have hstep : (j0:ℚ)/10 + dt = ((j0+1 : ℕ):ℚ)/10 := by
        push_cast
        norm_num [dt]
        ring
      rw [hstep] at h
      exact ih _ (j0+1) _ _ h
    · cases h
      exact ⟨j0, rfl⟩

end Dekodek
